import Mathlib

set_option maxRecDepth 8000

/-!
Verification development for the startup-analytics A/B platform core:
the deterministic experiment-assignment algorithm (src/ab/assignment.py,
src/ab/experiment.py) and the funnel-journey simulation engine
(src/simulator/engine.py, src/simulator/config.py), shallowly embedded in
Lean 4.  Machine integers are modelled as Nat with explicit reduction
modulo 2 ^ 32 where the hash arithmetic wraps; Python floats are modelled
as exact rationals; code that can raise is modelled with Option / Except.
-/

namespace StartupAB

/-! ### 32-bit word helpers (Nat, reduced mod 2 ^ 32) -/

def w32 (n : Nat) : Nat := n % 4294967296

def rotr32 (n k : Nat) : Nat := w32 ((n >>> k) ||| (n <<< (32 - k)))

def not32 (n : Nat) : Nat := n ^^^ 4294967295

/-! ### SHA-256 (the hashlib.sha256 digest used by assignment.py)

The round constants are the first 32 bits of the fractional parts of the
cube roots of the first 64 primes, and the initial state words are the
first 32 bits of the fractional parts of the square roots of the first 8
primes, exactly as in FIPS 180-4; they are computed here from integer
cube/square roots rather than hard-coded.
-/

def rootGo (e n : Nat) : Nat → Nat → Nat → Nat
  | 0, lo, _ => lo
  | fuel + 1, lo, hi =>
    let mid := (lo + hi + 1) / 2
    if mid ^ e ≤ n then rootGo e n fuel mid hi else rootGo e n fuel lo (mid - 1)

/-- Integer e-th root by bisection: the largest k ≤ 2 ^ 40 with k ^ e ≤ n. -/
def rootNat (e n : Nat) : Nat := rootGo e n 50 0 1099511627776

/-- Integer cube root, for arguments below 2 ^ 120. -/
def cbrtNat (n : Nat) : Nat := rootNat 3 n

/-- Integer square root, for arguments below 2 ^ 80. -/
def sqrtNat (n : Nat) : Nat := rootNat 2 n

def primes64 : List Nat :=
  [2, 3, 5, 7, 11, 13, 17, 19, 23, 29, 31, 37, 41, 43, 47, 53,
   59, 61, 67, 71, 73, 79, 83, 89, 97, 101, 103, 107, 109, 113, 127, 131,
   137, 139, 149, 151, 157, 163, 167, 173, 179, 181, 191, 193, 197, 199, 211, 223,
   227, 229, 233, 239, 241, 251, 257, 263, 269, 271, 277, 281, 283, 293, 307, 311]

def shaK : List Nat := primes64.map (fun p => w32 (cbrtNat (p * 2 ^ 96)))

def shaH0 : List Nat := (primes64.take 8).map (fun p => w32 (sqrtNat (p * 2 ^ 64)))

/-- Big-endian bytes of a 64-bit value. -/
def be64 (n : Nat) : List Nat :=
  [(n >>> 56) % 256, (n >>> 48) % 256, (n >>> 40) % 256, (n >>> 32) % 256,
   (n >>> 24) % 256, (n >>> 16) % 256, (n >>> 8) % 256, n % 256]

/-- Big-endian bytes of a 32-bit word. -/
def be32 (n : Nat) : List Nat :=
  [(n >>> 24) % 256, (n >>> 16) % 256, (n >>> 8) % 256, n % 256]

/-- SHA-256 message padding: 0x80, zeros to 56 mod 64, 64-bit bit length. -/
def sha256Pad (msg : List Nat) : List Nat :=
  let padZeros := (64 - ((msg.length + 9) % 64)) % 64
  msg ++ [128] ++ List.replicate padZeros 0 ++ be64 (8 * msg.length)

def chunksAux : Nat → List Nat → List (List Nat)
  | 0, _ => []
  | _, [] => []
  | fuel + 1, l => l.take 64 :: chunksAux fuel (l.drop 64)

def chunks64 (l : List Nat) : List (List Nat) := chunksAux l.length l

/-- The 16 initial 32-bit big-endian words of a 64-byte block. -/
def blockWords : List Nat → List Nat
  | b0 :: b1 :: b2 :: b3 :: rest =>
    (((b0 * 256 + b1) * 256 + b2) * 256 + b3) :: blockWords rest
  | _ => []

/-- Case split on a Nat that forces it to a numeral before continuing;
used to keep kernel evaluation of the hash rounds iterative. -/
def natCase {β : Sort u} (n : Nat) (k : Nat → β) : β :=
  match n with
  | 0 => k 0
  | m + 1 => k (m + 1)

def extendW : Nat → List Nat → List Nat
  | 0, w => w
  | fuel + 1, w =>
    let t := w.length
    let g (i : Nat) : Nat := w.getD (t - i) 0
    let s0 := (rotr32 (g 15) 7) ^^^ (rotr32 (g 15) 18) ^^^ ((g 15) >>> 3)
    let s1 := (rotr32 (g 2) 17) ^^^ (rotr32 (g 2) 19) ^^^ ((g 2) >>> 10)
    natCase (w32 (g 16 + s0 + g 7 + s1)) (fun x => extendW fuel (w ++ [x]))

/-- The 64-entry message schedule of one block. -/
def schedW (block : List Nat) : List Nat := extendW 48 (blockWords block)

/-- Eight 32-bit words packed into one Nat, big-endian. -/
def pack8 (a b c d e f g h : Nat) : Nat :=
  let p1 := (a <<< 32) ||| b
  let p2 := (p1 <<< 32) ||| c
  let p3 := (p2 <<< 32) ||| d
  let p4 := (p3 <<< 32) ||| e
  let p5 := (p4 <<< 32) ||| f
  let p6 := (p5 <<< 32) ||| g
  (p6 <<< 32) ||| h

/-- Word i (0 = a, ..., 7 = h) of a packed state. -/
def unpack (st i : Nat) : Nat := w32 (st >>> (32 * (7 - i)))

def sha256Step (kt wt st : Nat) : Nat :=
  let a := unpack st 0
  let b := unpack st 1
  let c := unpack st 2
  let d := unpack st 3
  let e := unpack st 4
  let f := unpack st 5
  let g := unpack st 6
  let h := unpack st 7
  let bigS1 := (rotr32 e 6) ^^^ (rotr32 e 11) ^^^ (rotr32 e 25)
  let ch := (e &&& f) ^^^ ((not32 e) &&& g)
  let t1 := w32 (h + bigS1 + ch + kt + wt)
  let bigS0 := (rotr32 a 2) ^^^ (rotr32 a 13) ^^^ (rotr32 a 22)
  let maj := (a &&& b) ^^^ (a &&& c) ^^^ (b &&& c)
  let t2 := w32 (bigS0 + maj)
  pack8 (w32 (t1 + t2)) a b c (w32 (d + t1)) e f g

def sha256Rounds (w : List Nat) : Nat → Nat → Nat
  | 0, st => st
  | fuel + 1, st =>
    let t := 64 - (fuel + 1)
    natCase (sha256Step (shaK.getD t 0) (w.getD t 0) st) (sha256Rounds w fuel)

def sha256Block (hv : List Nat) (block : List Nat) : List Nat :=
  let w := schedW block
  let st0 := pack8 (hv.getD 0 0) (hv.getD 1 0) (hv.getD 2 0) (hv.getD 3 0)
    (hv.getD 4 0) (hv.getD 5 0) (hv.getD 6 0) (hv.getD 7 0)
  natCase (sha256Rounds w 64 st0) (fun fin =>
    [w32 (hv.getD 0 0 + unpack fin 0), w32 (hv.getD 1 0 + unpack fin 1),
     w32 (hv.getD 2 0 + unpack fin 2), w32 (hv.getD 3 0 + unpack fin 3),
     w32 (hv.getD 4 0 + unpack fin 4), w32 (hv.getD 5 0 + unpack fin 5),
     w32 (hv.getD 6 0 + unpack fin 6), w32 (hv.getD 7 0 + unpack fin 7)])

/-- SHA-256 digest of a byte list, as the list of its 32 bytes. -/
def sha256 (msg : List Nat) : List Nat :=
  (((chunks64 (sha256Pad msg)).foldl sha256Block shaH0).map be32).flatten

/-- UTF-8 bytes of one code point, as produced by Python str.encode(). -/
def utf8Bytes (c : Nat) : List Nat :=
  if c < 128 then [c]
  else if c < 2048 then [192 ||| (c >>> 6), 128 ||| (c &&& 63)]
  else if c < 65536 then
    [224 ||| (c >>> 12), 128 ||| ((c >>> 6) &&& 63), 128 ||| (c &&& 63)]
  else
    [240 ||| (c >>> 18), 128 ||| ((c >>> 12) &&& 63),
     128 ||| ((c >>> 6) &&& 63), 128 ||| (c &&& 63)]

/-- Python s.encode(): the UTF-8 bytes of a string. -/
def strBytes (s : String) : List Nat := (s.data.map (fun c => utf8Bytes c.toNat)).flatten

/-! ### Experiment model (src/ab/experiment.py) -/

structure Variant where
  name : String
  weight : ℚ
deriving DecidableEq

structure Experiment where
  experiment_id : String
  name : String
  variants : List Variant
  target_metric : String
deriving DecidableEq

/-- The three construction invariants checked by Experiment.post_init. -/
def Experiment.invariantsOK (variants : List Variant) : Prop :=
  |(variants.map Variant.weight).sum - 1| ≤ 1 / 1000 ∧
  2 ≤ variants.length ∧
  (variants.map Variant.name).Nodup

instance (variants : List Variant) : Decidable (Experiment.invariantsOK variants) := by
  unfold Experiment.invariantsOK; infer_instance

/-- Experiment construction with the post-init validation of experiment.py:
raising ValueError is modelled as Except.error. -/
def mkExperiment (experiment_id name : String) (variants : List Variant)
    (target_metric : String) : Except String Experiment :=
  let total := (variants.map Variant.weight).sum
  if 1 / 1000 < |total - 1| then
    .error "Variant weights must sum to 1.0"
  else if variants.length < 2 then
    .error "Experiment must have at least 2 variants"
  else if (variants.map Variant.name).dedup.length ≠ (variants.map Variant.name).length then
    .error "Variant names must be unique"
  else
    .ok ⟨experiment_id, name, variants, target_metric⟩

/-- Default experiment used by the simulator (experiment.py). -/
def PRICING_PAGE_EXPERIMENT : Experiment :=
  ⟨"exp_pricing_page_v1", "Pricing Page Redesign",
   [⟨"control", 1 / 2⟩, ⟨"treatment", 1 / 2⟩], "purchase"⟩

/-! ### Deterministic assignment (src/ab/assignment.py) -/

/-- int.from_bytes(bytes, big): big-endian value of a byte list. -/
def beVal (l : List Nat) : Nat := l.foldl (fun acc b => acc * 256 + b) 0

/-- The hash bucket of assignment.py: first 8 digest bytes of
sha256 of "experiment_id:user_id", big-endian, divided by 2 ^ 64. -/
def bucket (experiment_id user_id : String) : ℚ :=
  let hash_bytes := sha256 (strBytes (experiment_id ++ ":" ++ user_id))
  (beVal (hash_bytes.take 8) : ℚ) / 2 ^ 64

/-- The cumulative-weight walk of assignment.py: the name of the first
variant with bucket < cumulative, if any. -/
def assignWalk (b : ℚ) (cumulative : ℚ) : List Variant → Option String
  | [] => none
  | v :: rest =>
    let c := cumulative + v.weight
    if b < c then some v.name else assignWalk b c rest

/-- assign_variant of assignment.py.  The result is an Option: none models
the IndexError that indexing variants[-1] would raise on an experiment
with no variants (unreachable for validly constructed experiments). -/
def assign_variant (experiment : Experiment) (user_id : String) : Option String :=
  match assignWalk (bucket experiment.experiment_id user_id) 0 experiment.variants with
  | some n => some n
  | none => (experiment.variants.getLast?).map Variant.name

/-- Written from the spec claim C1's words: the name of the first variant,
in the experiment's declared order, whose cumulative weight strictly
exceeds the bucket value. -/
def cumulativeNamed (acc : ℚ) : List Variant → List (String × ℚ)
  | [] => []
  | v :: rest => (v.name, acc + v.weight) :: cumulativeNamed (acc + v.weight) rest

def specFirstExceeding (b : ℚ) (variants : List Variant) : Option String :=
  ((cumulativeNamed 0 variants).find? (fun p => decide (b < p.2))).map Prod.fst

/-! ### Event records

Modelled from the spec: the Event record and EventType enum live in
src/collector/schemas.py, which is not part of the sources at hand; the
spec's section 3 data model gives their shape (event_id, user_id,
event_type enum, timestamp instant, string-keyed properties).  Instants
are modelled as integer seconds, property values as strings or rationals.
-/

inductive EventType where
  | PAGE_VIEW
  | CLICK
  | EXPERIMENT_ASSIGNMENT
  | SIGNUP
  | PURCHASE
deriving DecidableEq

inductive PropValue where
  | str : String → PropValue
  | num : ℚ → PropValue
deriving DecidableEq

structure Event where
  event_id : String
  user_id : String
  event_type : EventType
  timestamp : Int
  properties : List (String × PropValue)
deriving DecidableEq

/-! ### Simulation parameters (src/simulator/config.py) -/

structure SimulationConfig where
  num_users : Nat
  days : Nat
  seed : Nat
  prob_signup : ℚ
  prob_onboarding : ℚ
  prob_purchase : ℚ
  treatment_uplift : ℚ
  min_page_views : Nat
  max_page_views : Nat
  min_clicks : Nat
  max_clicks : Nat
  pages : List String
  click_targets : List String
  plans : List String
  plan_prices : List ℚ
  plan_weights : List ℚ

/-- The default field values of SimulationConfig in config.py. -/
def defaultConfig : SimulationConfig :=
  ⟨2000, 14, 42, 30 / 100, 70 / 100, 15 / 100, 8 / 100, 1, 8, 0, 5,
   ["/", "/features", "/pricing", "/docs", "/blog", "/about"],
   ["cta_hero", "cta_pricing", "nav_features", "nav_docs", "footer_signup"],
   ["starter", "pro", "enterprise"],
   [29, 99, 299],
   [6 / 10, 3 / 10, 1 / 10]⟩

/-! ### The seeded random stream

Modelled from the spec: the engine threads one Python random.Random
instance, seeded once per run, through every stage of every user journey
(spec sections 4.2, 4.3 and 9).  random.Random is standard-library code,
so it is abstracted here as an explicit state type with one deterministic
transition per draw kind; every engine theorem is stated for an arbitrary
such stream.  randint lo hi draws from [lo, hi], random draws from [0, 1),
choice picks a list element, randbytes yields n bytes, and choicesIdx
models rng.choices over range(n) with the given weights.  Likewise md5Hex
abstracts the standard-library hashlib.md5 hexdigest used only to format
event ids.
-/

structure Rng (σ : Type) where
  init : Nat → σ
  randint : Nat → Nat → σ → Nat × σ
  random : σ → ℚ × σ
  choice : List String → σ → String × σ
  randbytes : Nat → σ → List Nat × σ
  choicesIdx : Nat → List ℚ → σ → Nat × σ

/-- make_event of engine.py: the event id is the md5 hex digest of 16
bytes drawn from the shared stream. -/
def make_event {σ : Type} (R : Rng σ) (md5Hex : List Nat → String)
    (user_id : String) (event_type : EventType) (timestamp : Int) (s : σ)
    (properties : List (String × PropValue)) : Event × σ :=
  let bs := R.randbytes 16 s
  (⟨md5Hex bs.1, user_id, event_type, timestamp, properties⟩, bs.2)

/-- The page-view loop of the journey: emit a PAGE_VIEW at the current
time, then advance the clock by randint 5 120 seconds. -/
def pagesLoop {σ : Type} (R : Rng σ) (md5Hex : List Nat → String)
    (cfg : SimulationConfig) (user_id : String) :
    Nat → Int → σ → List Event × Int × σ
  | 0, t, s => ([], t, s)
  | n + 1, t, s =>
    let pg := R.choice cfg.pages s
    let ev := make_event R md5Hex user_id .PAGE_VIEW t pg.2 [("page", .str pg.1)]
    let d := R.randint 5 120 ev.2
    let rest := pagesLoop R md5Hex cfg user_id n (t + d.1) d.2
    (ev.1 :: rest.1, rest.2)

/-- The click loop of the journey: emit a CLICK at the current time, then
advance the clock by randint 2 30 seconds. -/
def clicksLoop {σ : Type} (R : Rng σ) (md5Hex : List Nat → String)
    (cfg : SimulationConfig) (user_id : String) :
    Nat → Int → σ → List Event × Int × σ
  | 0, t, s => ([], t, s)
  | n + 1, t, s =>
    let tg := R.choice cfg.click_targets s
    let ev := make_event R md5Hex user_id .CLICK t tg.2 [("target", .str tg.1)]
    let d := R.randint 2 30 ev.2
    let rest := clicksLoop R md5Hex cfg user_id n (t + d.1) d.2
    (ev.1 :: rest.1, rest.2)

/-- The post-onboarding dashboard loop: emit a PAGE_VIEW of /dashboard at
the current time, then advance the clock by randint 10 180 seconds. -/
def dashLoop {σ : Type} (R : Rng σ) (md5Hex : List Nat → String)
    (user_id : String) : Nat → Int → σ → List Event × Int × σ
  | 0, t, s => ([], t, s)
  | n + 1, t, s =>
    let ev := make_event R md5Hex user_id .PAGE_VIEW t s [("page", .str "/dashboard")]
    let d := R.randint 10 180 ev.2
    let rest := dashLoop R md5Hex user_id n (t + d.1) d.2
    (ev.1 :: rest.1, rest.2)

/-- Lines 127 to 129 of engine.py: the effective purchase probability,
with the treatment uplift applied exactly when the assigned variant is
the string treatment, clamped at 1. -/
def purchaseProbOf (cfg : SimulationConfig) (variant : Option String) : ℚ :=
  let purchase_prob := cfg.prob_purchase
  if variant = some "treatment" then min (purchase_prob + cfg.treatment_uplift) 1
  else purchase_prob

/-- Written from the spec claim C4's words: prob_purchase, increased by
treatment_uplift if and only if the assigned variant's name equals the
distinguished treatment label (clamped to at most 1), and exactly
prob_purchase for any other or no assigned variant. -/
def specEffectivePurchaseProb (cfg : SimulationConfig) (assigned : Option String) : ℚ :=
  if assigned = some "treatment" then min (cfg.prob_purchase + cfg.treatment_uplift) 1
  else cfg.prob_purchase

/-- The tail of the journey after the optional experiment-assignment
stage: signup gate, onboarding gate, dashboard browsing, purchase gate
(engine.py lines 102 to 148). -/
def journeyRest {σ : Type} (R : Rng σ) (md5Hex : List Nat → String)
    (cfg : SimulationConfig) (user_id : String) (variant : Option String)
    (t : Int) (s : σ) : List Event × σ :=
  let g1 := R.random s
  if cfg.prob_signup ≤ g1.1 then ([], g1.2)
  else
    let d1 := R.randint 10 300 g1.2
    let se := make_event R md5Hex user_id .SIGNUP (t + d1.1) d1.2 [("source", .str "web")]
    let g2 := R.random se.2
    if cfg.prob_onboarding ≤ g2.1 then ([se.1], g2.2)
    else
      let d2 := R.randint 60 3600 g2.2
      let nd := R.randint 2 5 d2.2
      let dl := dashLoop R md5Hex user_id nd.1 (t + d1.1 + d2.1) nd.2
      let g3 := R.random dl.2.2
      if purchaseProbOf cfg variant ≤ g3.1 then (se.1 :: dl.1, g3.2)
      else
        let d3 := R.randint 30 600 g3.2
        let ci := R.choicesIdx cfg.plans.length cfg.plan_weights d3.2
        let pe := make_event R md5Hex user_id .PURCHASE (dl.2.1 + d3.1) ci.2
          [("plan", .str (cfg.plans.getD ci.1 "")),
           ("amount", .num (cfg.plan_prices.getD ci.1 0))]
        (se.1 :: dl.1 ++ [pe.1], pe.2)

/-- simulate_user_journey of engine.py.  The result is an Option: none
models the exception that assign_variant would raise on an experiment
with an empty variant list. -/
def simulate_user_journey {σ : Type} (R : Rng σ) (md5Hex : List Nat → String)
    (user_id : String) (start_time : Int) (cfg : SimulationConfig) (s : σ)
    (experiment : Option Experiment) : Option (List Event × σ) :=
  let a := R.randint 0 (cfg.days * 86400) s
  let t1 : Int := start_time + a.1
  let np := R.randint cfg.min_page_views cfg.max_page_views a.2
  let p := pagesLoop R md5Hex cfg user_id np.1 t1 np.2
  let nc := R.randint cfg.min_clicks cfg.max_clicks p.2.2
  let c := clicksLoop R md5Hex cfg user_id nc.1 p.2.1 nc.2
  match experiment with
  | none =>
    let rest := journeyRest R md5Hex cfg user_id none c.2.1 c.2.2
    some (p.1 ++ c.1 ++ rest.1, rest.2)
  | some e =>
    match assign_variant e user_id with
    | none => none
    | some v =>
      let d := R.randint 1 10 c.2.2
      let ae := make_event R md5Hex user_id .EXPERIMENT_ASSIGNMENT (c.2.1 + d.1) d.2
        [("experiment_id", .str e.experiment_id), ("variant", .str v)]
      let rest := journeyRest R md5Hex cfg user_id (some v) (c.2.1 + d.1) ae.2
      some (p.1 ++ c.1 ++ (ae.1 :: rest.1), rest.2)

/-! ### The driver (generate_events of engine.py) -/

def decDigitsAux : Nat → Nat → List Nat
  | 0, _ => []
  | _, 0 => []
  | fuel + 1, n + 1 => ((n + 1) % 10) :: decDigitsAux fuel ((n + 1) / 10)

def digitChar (d : Nat) : Char := Char.ofNat (48 + d)

/-- Decimal digit characters of a natural number, most significant first. -/
def decimalChars (i : Nat) : List Char :=
  if i = 0 then ['0'] else ((decDigitsAux i i).map digitChar).reverse

/-- Python format user_i:05d — the decimal form left-padded with zeros to
width 5. -/
def pad5 (i : Nat) : List Char :=
  List.replicate (5 - (decimalChars i).length) '0' ++ decimalChars i

def userId (i : Nat) : String := "user_" ++ String.mk (pad5 i)

/-- The per-user loop of generate_events: journeys for users i, i+1, ...
for n users, threading the one shared stream, concatenating events. -/
def usersLoop {σ : Type} (R : Rng σ) (md5Hex : List Nat → String)
    (cfg : SimulationConfig) (experiment : Option Experiment)
    (start_time : Int) : Nat → Nat → σ → Option (List Event × σ)
  | 0, _, s => some ([], s)
  | n + 1, i, s =>
    match simulate_user_journey R md5Hex (userId i) start_time cfg s experiment with
    | none => none
    | some (evs, s1) =>
      match usersLoop R md5Hex cfg experiment start_time n (i + 1) s1 with
      | none => none
      | some (rest, s2) => some (evs ++ rest, s2)

/-- Sorting relation of the driver: ascending timestamp. -/
def tsLE (a b : Event) : Prop := a.timestamp ≤ b.timestamp

instance : DecidableRel tsLE := fun a b => Int.decLe a.timestamp b.timestamp

instance : IsTotal Event tsLE := ⟨fun a b => Int.le_total a.timestamp b.timestamp⟩

instance : IsTrans Event tsLE := ⟨fun _ _ _ hab hbc => le_trans hab hbc⟩

/-- generate_events of engine.py.  The wall-clock instant read by
datetime.now is an explicit parameter now (integer seconds); the
simulation window ends one day before it.  The final stable sort by
timestamp is the insertion sort, which agrees with Python's stable
list.sort under the ascending-timestamp key. -/
def generate_events {σ : Type} (R : Rng σ) (md5Hex : List Nat → String)
    (cfg : SimulationConfig) (experiment : Option Experiment) (now : Int) :
    Option (List Event) :=
  let s0 := R.init cfg.seed
  let end_time := now - 86400
  let start_time := end_time - cfg.days * 86400
  match usersLoop R md5Hex cfg experiment start_time cfg.num_users 0 s0 with
  | none => none
  | some (evs, _) => some (List.insertionSort tsLE evs)

/-- Shift of an event's timestamp, leaving every other field unchanged. -/
def shiftEvent (d : Int) (e : Event) : Event :=
  ⟨e.event_id, e.user_id, e.event_type, e.timestamp + d, e.properties⟩

/-- Bool test for the EXPERIMENT_ASSIGNMENT event type. -/
def isAssign (e : Event) : Bool := e.event_type = EventType.EXPERIMENT_ASSIGNMENT

/-! ### Concrete instances and proof-side helper definitions -/

/-- A trivial deterministic stream used to instantiate theorems: every
randint draw returns its lower bound, random returns 0, choice returns
the first element. -/
def unitRng : Rng Unit :=
  ⟨fun _ => (), fun lo _ s => (lo, s), fun s => (0, s),
   fun l s => (l.headD "", s), fun n s => (List.replicate n 0, s),
   fun _ _ s => (0, s)⟩

def constMd5 : List Nat → String := fun _ => "id"

def cfgTiny : SimulationConfig :=
  { defaultConfig with num_users := 1, days := 1, prob_signup := 0, min_clicks := 1 }

/-- The concrete scenario config of claim C5: num_users 500, days 7,
seed 42, other fields at their defaults. -/
def cfg500 : SimulationConfig := { defaultConfig with num_users := 500, days := 7, seed := 42 }

def ofDigitsLE : List Nat → Nat
  | [] => 0
  | a :: l => a + 10 * ofDigitsLE l

def charVal (c : Char) : Nat := c.toNat - 48

def parsePad (cs : List Char) : Nat := ofDigitsLE (cs.reverse.map charVal)

/-! ### Lemmas and claim theorems -/

lemma sha256_test_vector :
    sha256 (strBytes "abc") =
      [0xba, 0x78, 0x16, 0xbf, 0x8f, 0x01, 0xcf, 0xea,
       0x41, 0x41, 0x40, 0xde, 0x5d, 0xae, 0x22, 0x23,
       0xb0, 0x03, 0x61, 0xa3, 0x96, 0x17, 0x7a, 0x9c,
       0xb4, 0x10, 0xff, 0x61, 0xf2, 0x00, 0x15, 0xad] := by
  with_unfolding_all decide

lemma dedup_length_eq_iff {l : List String} : l.dedup.length = l.length ↔ l.Nodup := by
  constructor
  · intro h
    have he : l.dedup = l := (List.dedup_sublist l).eq_of_length h
    simpa [he] using l.nodup_dedup
  · intro h
    rw [List.dedup_eq_self.2 h]

/-- Claim C8: constructing an Experiment errors exactly when one of the
three invariants fails (weights sum to 1 within 0.001, at least two
variants, unique names), and a definition satisfying all three constructs
successfully with its fields unchanged. -/
theorem c8_construction_fails_fast (eid nm : String) (vs : List Variant) (tm : String) :
    (mkExperiment eid nm vs tm = Except.ok ⟨eid, nm, vs, tm⟩ ↔ Experiment.invariantsOK vs) ∧
    ((∃ msg, mkExperiment eid nm vs tm = Except.error msg) ↔ ¬ Experiment.invariantsOK vs) := by
  unfold mkExperiment Experiment.invariantsOK
  dsimp only
  split_ifs with h1 h2 h3
  · exact ⟨iff_of_false (by simp) (fun h => not_le.2 h1 h.1),
      iff_of_true ⟨_, rfl⟩ (fun h => not_le.2 h1 h.1)⟩
  · exact ⟨iff_of_false (by simp) (fun h => not_le.2 h2 h.2.1),
      iff_of_true ⟨_, rfl⟩ (fun h => not_le.2 h2 h.2.1)⟩
  · exact ⟨iff_of_false (by simp) (fun h => h3 (dedup_length_eq_iff.2 h.2.2)),
      iff_of_true ⟨_, rfl⟩ (fun h => h3 (dedup_length_eq_iff.2 h.2.2))⟩
  · have hinv : |(vs.map Variant.weight).sum - 1| ≤ 1 / 1000 ∧ 2 ≤ vs.length ∧
        (vs.map Variant.name).Nodup :=
      ⟨not_lt.1 h1, not_lt.1 h2, dedup_length_eq_iff.1 (not_ne_iff.1 h3)⟩
    exact ⟨iff_of_true rfl hinv, iff_of_false (by simp) (not_not_intro hinv)⟩

lemma assignWalk_of_find (b : ℚ) : ∀ (vs : List Variant) (acc : ℚ) (v : String),
    ((cumulativeNamed acc vs).find? (fun p => decide (b < p.2))).map Prod.fst = some v →
    assignWalk b acc vs = some v
  | [], acc, v => by intro h; simp [cumulativeNamed, List.find?] at h
  | u :: rest, acc, v => by
    intro h
    by_cases hb : b < acc + u.weight
    · rw [cumulativeNamed, List.find?_cons_of_pos _ (by simpa using hb)] at h
      simp only [Option.map_some', Option.some.injEq] at h
      simp [assignWalk, hb, h]
    · rw [cumulativeNamed, List.find?_cons_of_neg _ (by simpa using hb)] at h
      simp only [assignWalk, hb, if_false]
      exact assignWalk_of_find b rest (acc + u.weight) v h

lemma assignWalk_mem (b : ℚ) : ∀ (vs : List Variant) (acc : ℚ) (n : String),
    assignWalk b acc vs = some n → n ∈ vs.map Variant.name
  | [], acc, n => by simp [assignWalk]
  | u :: rest, acc, n => by
    intro h
    by_cases hb : b < acc + u.weight
    · simp only [assignWalk, hb, if_true, Option.some.injEq] at h
      simp [h]
    · simp only [assignWalk, hb, if_false] at h
      simpa using Or.inr (assignWalk_mem b rest (acc + u.weight) n h)

lemma foldl_byte_lt : ∀ (l : List Nat) (acc : Nat), (∀ x ∈ l, x < 256) →
    l.foldl (fun a b => a * 256 + b) acc < (acc + 1) * 256 ^ l.length
  | [], acc, _ => by simpa using Nat.lt_succ_self acc
  | b :: l, acc, h => by
    have hb : b < 256 := h b (List.mem_cons_self b l)
    have ih := foldl_byte_lt l (acc * 256 + b) (fun x hx => h x (List.mem_cons_of_mem _ hx))
    calc (b :: l).foldl (fun a c => a * 256 + c) acc
        = l.foldl (fun a c => a * 256 + c) (acc * 256 + b) := by simp [List.foldl_cons]
      _ < (acc * 256 + b + 1) * 256 ^ l.length := ih
      _ ≤ ((acc + 1) * 256) * 256 ^ l.length := by
          have : acc * 256 + b + 1 ≤ (acc + 1) * 256 := by omega
          exact Nat.mul_le_mul_right _ this
      _ = (acc + 1) * 256 ^ (b :: l).length := by rw [List.length_cons, pow_succ]; ring

lemma beVal_lt (l : List Nat) (h : ∀ x ∈ l, x < 256) : beVal l < 256 ^ l.length := by
  simpa using foldl_byte_lt l 0 h

lemma be32_mem_lt {x n : Nat} (h : x ∈ be32 n) : x < 256 := by
  simp only [be32, List.mem_cons, List.not_mem_nil, or_false] at h
  rcases h with h | h | h | h <;> (subst h; exact Nat.mod_lt _ (by norm_num))

lemma sha256_bytes_lt (msg : List Nat) : ∀ x ∈ sha256 msg, x < 256 := by
  intro x hx
  simp only [sha256, List.mem_flatten, List.mem_map] at hx
  obtain ⟨l, ⟨w, _, hw⟩, hxl⟩ := hx
  exact be32_mem_lt (hw ▸ hxl)

lemma bucket_nonneg (eid uid : String) : 0 ≤ bucket eid uid := by
  unfold bucket
  positivity

lemma bucket_lt_one (eid uid : String) : bucket eid uid < 1 := by
  unfold bucket
  rw [div_lt_one (by positivity)]
  have hlt : beVal ((sha256 (strBytes (eid ++ ":" ++ uid))).take 8) < 2 ^ 64 := by
    have h1 := beVal_lt ((sha256 (strBytes (eid ++ ":" ++ uid))).take 8)
      (fun x hx => sha256_bytes_lt _ x (List.take_subset _ _ hx))
    have h2 : (256 : Nat) ^ ((sha256 (strBytes (eid ++ ":" ++ uid))).take 8).length ≤ 256 ^ 8 :=
      Nat.pow_le_pow_right (by norm_num) (by simpa using List.length_take_le 8 _)
    calc beVal _ < _ := h1
      _ ≤ 256 ^ 8 := h2
      _ = 2 ^ 64 := by norm_num
  calc ((beVal ((sha256 (strBytes (eid ++ ":" ++ uid))).take 8) : ℚ))
      < ((2 ^ 64 : ℕ) : ℚ) := by exact_mod_cast hlt
    _ = 2 ^ 64 := by push_cast; ring

/-- Claim C1: the assignment bucket lies in the interval from 0
inclusive to 1 exclusive, and whenever the spec's selection rule (first
variant in declared order whose cumulative weight strictly exceeds the
bucket) picks a variant, assign_variant returns exactly that name. -/
theorem c1_assign_first_exceeding (e : Experiment) (uid : String) (v : String)
    (h : specFirstExceeding (bucket e.experiment_id uid) e.variants = some v) :
    (0 ≤ bucket e.experiment_id uid ∧ bucket e.experiment_id uid < 1) ∧
    assign_variant e uid = some v := by
  refine ⟨⟨bucket_nonneg _ _, bucket_lt_one _ _⟩, ?_⟩
  unfold assign_variant
  rw [assignWalk_of_find _ _ _ _ h]

theorem c1_witness :
    specFirstExceeding (bucket "exp_pricing_page_v1" "user_00000")
      PRICING_PAGE_EXPERIMENT.variants = some "treatment" ∧
    ((0 ≤ bucket "exp_pricing_page_v1" "user_00000" ∧
      bucket "exp_pricing_page_v1" "user_00000" < 1) ∧
      assign_variant PRICING_PAGE_EXPERIMENT "user_00000" = some "treatment") :=
  ⟨by with_unfolding_all decide,
   c1_assign_first_exceeding PRICING_PAGE_EXPERIMENT "user_00000" "treatment"
     (by with_unfolding_all decide)⟩

/-- Claim C2: for an experiment satisfying the construction invariants,
assign_variant never fails and always returns the name of one of the
experiment's variants, and when no variant's cumulative weight exceeds
the bucket after the walk it returns the last variant's name. -/
theorem c2_assignment_never_fails (e : Experiment) (uid : String)
    (hv : Experiment.invariantsOK e.variants) :
    (∃ n, assign_variant e uid = some n ∧ n ∈ e.variants.map Variant.name) ∧
    (assignWalk (bucket e.experiment_id uid) 0 e.variants = none →
      assign_variant e uid = (e.variants.getLast?).map Variant.name) := by
  have hne : e.variants ≠ [] := by
    intro h
    rw [h] at hv
    exact absurd hv.2.1 (by simp)
  constructor
  · unfold assign_variant
    cases hw : assignWalk (bucket e.experiment_id uid) 0 e.variants with
    | some n => exact ⟨n, rfl, assignWalk_mem _ _ _ _ hw⟩
    | none =>
      refine ⟨(e.variants.getLast hne).name, ?_, ?_⟩
      · rw [List.getLast?_eq_getLast_of_ne_nil hne]
        rfl
      · exact List.mem_map_of_mem Variant.name (e.variants.getLast_mem hne)
  · intro hw
    unfold assign_variant
    rw [hw]

theorem c2_witness :
    Experiment.invariantsOK PRICING_PAGE_EXPERIMENT.variants ∧
    ((∃ n, assign_variant PRICING_PAGE_EXPERIMENT "user_001" = some n ∧
      n ∈ PRICING_PAGE_EXPERIMENT.variants.map Variant.name) ∧
    (assignWalk (bucket PRICING_PAGE_EXPERIMENT.experiment_id "user_001") 0
        PRICING_PAGE_EXPERIMENT.variants = none →
      assign_variant PRICING_PAGE_EXPERIMENT "user_001" =
        (PRICING_PAGE_EXPERIMENT.variants.getLast?).map Variant.name)) :=
  ⟨by with_unfolding_all decide,
   c2_assignment_never_fails PRICING_PAGE_EXPERIMENT "user_001" (by with_unfolding_all decide)⟩

/-- Claim C4: the effective purchase probability used by the purchase
gate equals the spec's description — prob_purchase increased by
treatment_uplift (clamped at 1) exactly for an assigned variant named
treatment, and exactly prob_purchase otherwise, in particular when no
variant was assigned. -/
theorem c4_purchase_probability (cfg : SimulationConfig) (variant : Option String) :
    purchaseProbOf cfg variant = specEffectivePurchaseProb cfg variant ∧
    purchaseProbOf cfg none = cfg.prob_purchase ∧
    (variant ≠ some "treatment" → purchaseProbOf cfg variant = cfg.prob_purchase) ∧
    purchaseProbOf cfg (some "treatment") =
      min (cfg.prob_purchase + cfg.treatment_uplift) 1 := by
  refine ⟨rfl, rfl, fun h => ?_, by simp [purchaseProbOf]⟩
  simp [purchaseProbOf, h]

theorem c4_witness :
    purchaseProbOf defaultConfig none = specEffectivePurchaseProb defaultConfig none ∧
    purchaseProbOf defaultConfig none = defaultConfig.prob_purchase ∧
    (none ≠ some "treatment" → purchaseProbOf defaultConfig none = defaultConfig.prob_purchase) ∧
    purchaseProbOf defaultConfig (some "treatment") =
      min (defaultConfig.prob_purchase + defaultConfig.treatment_uplift) 1 :=
  c4_purchase_probability defaultConfig none

lemma pagesLoop_types {σ : Type} (R : Rng σ) (md5Hex : List Nat → String)
    (cfg : SimulationConfig) (uid : String) : ∀ (n : Nat) (t : Int) (s : σ),
    ∀ e ∈ (pagesLoop R md5Hex cfg uid n t s).1,
      e.event_type = EventType.PAGE_VIEW ∧ e.user_id = uid
  | 0, t, s => by simp [pagesLoop]
  | n + 1, t, s => by
    intro e he
    simp only [pagesLoop, List.mem_cons] at he
    rcases he with he | he
    · subst he; exact ⟨rfl, rfl⟩
    · exact pagesLoop_types R md5Hex cfg uid n _ _ e he

lemma clicksLoop_types {σ : Type} (R : Rng σ) (md5Hex : List Nat → String)
    (cfg : SimulationConfig) (uid : String) : ∀ (n : Nat) (t : Int) (s : σ),
    ∀ e ∈ (clicksLoop R md5Hex cfg uid n t s).1,
      e.event_type = EventType.CLICK ∧ e.user_id = uid
  | 0, t, s => by simp [clicksLoop]
  | n + 1, t, s => by
    intro e he
    simp only [clicksLoop, List.mem_cons] at he
    rcases he with he | he
    · subst he; exact ⟨rfl, rfl⟩
    · exact clicksLoop_types R md5Hex cfg uid n _ _ e he

lemma dashLoop_types {σ : Type} (R : Rng σ) (md5Hex : List Nat → String)
    (uid : String) : ∀ (n : Nat) (t : Int) (s : σ),
    ∀ e ∈ (dashLoop R md5Hex uid n t s).1,
      e.event_type = EventType.PAGE_VIEW ∧ e.user_id = uid
  | 0, t, s => by simp [dashLoop]
  | n + 1, t, s => by
    intro e he
    simp only [dashLoop, List.mem_cons] at he
    rcases he with he | he
    · subst he; exact ⟨rfl, rfl⟩
    · exact dashLoop_types R md5Hex uid n _ _ e he

lemma journeyRest_types {σ : Type} (R : Rng σ) (md5Hex : List Nat → String)
    (cfg : SimulationConfig) (uid : String) (v : Option String) (t : Int) (s : σ) :
    ∀ e ∈ (journeyRest R md5Hex cfg uid v t s).1,
      e.event_type ≠ EventType.EXPERIMENT_ASSIGNMENT ∧ e.user_id = uid := by
  intro e he
  unfold journeyRest at he
  dsimp only at he
  split_ifs at he
  all_goals
    simp only [List.mem_cons, List.mem_append, List.mem_singleton,
      List.not_mem_nil, or_false, false_or] at he
  all_goals
    first
      | (rcases he with (rfl | he) | rfl)
      | (rcases he with rfl | he | rfl)
      | (rcases he with rfl | he)
  all_goals
    first
      | exact ⟨by simp [make_event], by simp [make_event]⟩
      | (have hd := dashLoop_types R md5Hex uid _ _ _ e he
         exact ⟨by rw [hd.1]; simp, hd.2⟩)

lemma pagesLoop_chunk {σ : Type} (R : Rng σ) (Hlo : ∀ lo hi st, lo ≤ (R.randint lo hi st).1)
    (md5Hex : List Nat → String) (cfg : SimulationConfig) (uid : String) :
    ∀ (n : Nat) (t : Int) (s : σ),
      t ≤ (pagesLoop R md5Hex cfg uid n t s).2.1 ∧
      (pagesLoop R md5Hex cfg uid n t s).1.Pairwise (fun a b => a.timestamp < b.timestamp) ∧
      ∀ e ∈ (pagesLoop R md5Hex cfg uid n t s).1,
        t ≤ e.timestamp ∧ e.timestamp < (pagesLoop R md5Hex cfg uid n t s).2.1
  | 0, t, s => by simp [pagesLoop]
  | n + 1, t, s => by
    simp only [pagesLoop]
    set pg := R.choice cfg.pages s with hpg
    set ev := make_event R md5Hex uid .PAGE_VIEW t pg.2 [("page", PropValue.str pg.1)] with hev
    set d := R.randint 5 120 ev.2 with hd
    have h5 : (5 : ℕ) ≤ d.1 := by rw [hd]; exact Hlo 5 120 _
    have h5i : (5 : ℤ) ≤ (d.1 : ℤ) := by exact_mod_cast h5
    have hevt : ev.1.timestamp = t := by rw [hev]; rfl
    obtain ⟨ih1, ih2, ih3⟩ := pagesLoop_chunk R Hlo md5Hex cfg uid n (t + d.1) d.2
    refine ⟨by omega, ?_, ?_⟩
    · refine List.pairwise_cons.2 ⟨?_, ih2⟩
      intro e he
      have := (ih3 e he).1
      omega
    · intro e he
      rcases List.mem_cons.1 he with rfl | he
      · exact ⟨by omega, by omega⟩
      · have := ih3 e he
        exact ⟨by omega, this.2⟩

lemma clicksLoop_chunk {σ : Type} (R : Rng σ) (Hlo : ∀ lo hi st, lo ≤ (R.randint lo hi st).1)
    (md5Hex : List Nat → String) (cfg : SimulationConfig) (uid : String) :
    ∀ (n : Nat) (t : Int) (s : σ),
      t ≤ (clicksLoop R md5Hex cfg uid n t s).2.1 ∧
      (clicksLoop R md5Hex cfg uid n t s).1.Pairwise (fun a b => a.timestamp < b.timestamp) ∧
      ∀ e ∈ (clicksLoop R md5Hex cfg uid n t s).1,
        t ≤ e.timestamp ∧ e.timestamp < (clicksLoop R md5Hex cfg uid n t s).2.1
  | 0, t, s => by simp [clicksLoop]
  | n + 1, t, s => by
    simp only [clicksLoop]
    set tg := R.choice cfg.click_targets s with htg
    set ev := make_event R md5Hex uid .CLICK t tg.2 [("target", PropValue.str tg.1)] with hev
    set d := R.randint 2 30 ev.2 with hd
    have h2 : (2 : ℕ) ≤ d.1 := by rw [hd]; exact Hlo 2 30 _
    have h2i : (2 : ℤ) ≤ (d.1 : ℤ) := by exact_mod_cast h2
    have hevt : ev.1.timestamp = t := by rw [hev]; rfl
    obtain ⟨ih1, ih2, ih3⟩ := clicksLoop_chunk R Hlo md5Hex cfg uid n (t + d.1) d.2
    refine ⟨by omega, ?_, ?_⟩
    · refine List.pairwise_cons.2 ⟨?_, ih2⟩
      intro e he
      have := (ih3 e he).1
      omega
    · intro e he
      rcases List.mem_cons.1 he with rfl | he
      · exact ⟨by omega, by omega⟩
      · have := ih3 e he
        exact ⟨by omega, this.2⟩

lemma dashLoop_chunk {σ : Type} (R : Rng σ) (Hlo : ∀ lo hi st, lo ≤ (R.randint lo hi st).1)
    (md5Hex : List Nat → String) (uid : String) :
    ∀ (n : Nat) (t : Int) (s : σ),
      t ≤ (dashLoop R md5Hex uid n t s).2.1 ∧
      (dashLoop R md5Hex uid n t s).1.Pairwise (fun a b => a.timestamp < b.timestamp) ∧
      ∀ e ∈ (dashLoop R md5Hex uid n t s).1,
        t ≤ e.timestamp ∧ e.timestamp < (dashLoop R md5Hex uid n t s).2.1
  | 0, t, s => by simp [dashLoop]
  | n + 1, t, s => by
    simp only [dashLoop]
    set ev := make_event R md5Hex uid .PAGE_VIEW t s [("page", PropValue.str "/dashboard")] with hev
    set d := R.randint 10 180 ev.2 with hd
    have h10 : (10 : ℕ) ≤ d.1 := by rw [hd]; exact Hlo 10 180 _
    have h10i : (10 : ℤ) ≤ (d.1 : ℤ) := by exact_mod_cast h10
    have hevt : ev.1.timestamp = t := by rw [hev]; rfl
    obtain ⟨ih1, ih2, ih3⟩ := dashLoop_chunk R Hlo md5Hex uid n (t + d.1) d.2
    refine ⟨by omega, ?_, ?_⟩
    · refine List.pairwise_cons.2 ⟨?_, ih2⟩
      intro e he
      have := (ih3 e he).1
      omega
    · intro e he
      rcases List.mem_cons.1 he with rfl | he
      · exact ⟨by omega, by omega⟩
      · have := ih3 e he
        exact ⟨by omega, this.2⟩

lemma journeyRest_chunk {σ : Type} (R : Rng σ) (Hlo : ∀ lo hi st, lo ≤ (R.randint lo hi st).1)
    (md5Hex : List Nat → String) (cfg : SimulationConfig) (uid : String)
    (v : Option String) (t : Int) (s : σ) :
    (journeyRest R md5Hex cfg uid v t s).1.Pairwise (fun a b => a.timestamp < b.timestamp) ∧
    ∀ e ∈ (journeyRest R md5Hex cfg uid v t s).1, t < e.timestamp := by
  unfold journeyRest
  dsimp only
  set g1 := R.random s with hg1
  set d1 := R.randint 10 300 g1.2 with hd1
  set se := make_event R md5Hex uid .SIGNUP (t + d1.1) d1.2 [("source", PropValue.str "web")] with hse
  set g2 := R.random se.2 with hg2
  set d2 := R.randint 60 3600 g2.2 with hd2
  set nd := R.randint 2 5 d2.2 with hnd
  set dl := dashLoop R md5Hex uid nd.1 (t + d1.1 + d2.1) nd.2 with hdl
  set g3 := R.random dl.2.2 with hg3
  set d3 := R.randint 30 600 g3.2 with hd3
  set ci := R.choicesIdx cfg.plans.length cfg.plan_weights d3.2 with hci
  set pe := make_event R md5Hex uid .PURCHASE (dl.2.1 + d3.1) ci.2
    [("plan", PropValue.str (cfg.plans.getD ci.1 "")),
     ("amount", PropValue.num (cfg.plan_prices.getD ci.1 0))] with hpe
  have h10 : (10 : ℤ) ≤ (d1.1 : ℤ) := by exact_mod_cast (hd1 ▸ Hlo 10 300 g1.2)
  have h60 : (60 : ℤ) ≤ (d2.1 : ℤ) := by exact_mod_cast (hd2 ▸ Hlo 60 3600 g2.2)
  have h30 : (30 : ℤ) ≤ (d3.1 : ℤ) := by exact_mod_cast (hd3 ▸ Hlo 30 600 g3.2)
  have hset : se.1.timestamp = t + (d1.1 : ℤ) := by rw [hse]; rfl
  have hpet : pe.1.timestamp = dl.2.1 + (d3.1 : ℤ) := by rw [hpe]; rfl
  obtain ⟨hdl1, hdl2, hdl3⟩ := dashLoop_chunk R Hlo md5Hex uid nd.1 (t + d1.1 + d2.1) nd.2
  rw [← hdl] at hdl1 hdl2 hdl3
  split_ifs
  · simp
  · refine ⟨List.pairwise_singleton _ _, ?_⟩
    intro e he
    rcases List.mem_singleton.1 he with rfl
    omega
  · constructor
    · refine List.pairwise_cons.2 ⟨?_, hdl2⟩
      intro e he
      have := (hdl3 e he).1
      omega
    · intro e he
      rcases List.mem_cons.1 he with rfl | he
      · omega
      · have := (hdl3 e he).1
        omega
  · constructor
    · refine List.pairwise_cons.2 ⟨?_, ?_⟩
      · intro e he
        rcases List.mem_append.1 he with he | he
        · have := (hdl3 e he).1
          omega
        · rcases List.mem_singleton.1 he with rfl
          omega
      · refine (List.pairwise_append).2 ⟨hdl2, List.pairwise_singleton _ _, ?_⟩
        intro e he f hf
        rcases List.mem_singleton.1 hf with rfl
        have := (hdl3 e he).2
        omega
    · intro e he
      rcases List.mem_cons.1 he with rfl | he
      · omega
      · rcases List.mem_append.1 he with he | he
        · have := (hdl3 e he).1
          omega
        · rcases List.mem_singleton.1 he with rfl
          omega

/-- Claim C10: within one call of simulate_user_journey (with the
randint draws respecting their lower bounds, as Python's randint does,
and the config's count ranges well-formed as in the defaults), the
emitted events have strictly increasing timestamps, every inter-event
advance being at least one second. -/
theorem c10_journey_strictly_increasing {σ : Type} (R : Rng σ)
    (md5Hex : List Nat → String) (cfg : SimulationConfig) (uid : String)
    (start : Int) (s : σ) (experiment : Option Experiment)
    (evs : List Event) (s' : σ)
    (Hlo : ∀ lo hi st, lo ≤ (R.randint lo hi st).1)
    (hpv : cfg.min_page_views ≤ cfg.max_page_views)
    (hck : cfg.min_clicks ≤ cfg.max_clicks)
    (h : simulate_user_journey R md5Hex uid start cfg s experiment = some (evs, s')) :
    evs.Pairwise (fun a b => a.timestamp < b.timestamp) := by
  unfold simulate_user_journey at h
  dsimp only at h
  set a := R.randint 0 (cfg.days * 86400) s with ha
  set np := R.randint cfg.min_page_views cfg.max_page_views a.2 with hnp
  set p := pagesLoop R md5Hex cfg uid np.1 (start + a.1) np.2 with hp
  set nc := R.randint cfg.min_clicks cfg.max_clicks p.2.2 with hnc
  set c := clicksLoop R md5Hex cfg uid nc.1 p.2.1 nc.2 with hc
  obtain ⟨hp1, hp2, hp3⟩ := pagesLoop_chunk R Hlo md5Hex cfg uid np.1 (start + a.1) np.2
  rw [← hp] at hp1 hp2 hp3
  obtain ⟨hc1, hc2, hc3⟩ := clicksLoop_chunk R Hlo md5Hex cfg uid nc.1 p.2.1 nc.2
  rw [← hc] at hc1 hc2 hc3
  cases experiment with
  | none =>
    obtain ⟨hr1, hr2⟩ := journeyRest_chunk R Hlo md5Hex cfg uid none c.2.1 c.2.2
    simp only [Option.some.injEq, Prod.mk.injEq] at h
    have hevs : evs = p.1 ++ c.1 ++ (journeyRest R md5Hex cfg uid none c.2.1 c.2.2).1 := by
      rw [← h.1]
    subst hevs
    refine (List.pairwise_append).2 ⟨(List.pairwise_append).2 ⟨hp2, hc2, ?_⟩, hr1, ?_⟩
    · intro x hx y hy
      have hxb := (hp3 x hx).2
      have hyb := (hc3 y hy).1
      omega
    · intro x hx y hy
      have hyb := hr2 y hy
      rcases List.mem_append.1 hx with hx | hx
      · have hxb := (hp3 x hx).2
        omega
      · have hxb := (hc3 x hx).2
        omega
  | some e =>
    dsimp only at h
    cases hav : assign_variant e uid with
    | none => rw [hav] at h; exact absurd h (by simp)
    | some v =>
      rw [hav] at h
      dsimp only at h
      set d := R.randint 1 10 c.2.2 with hd
      set ae := make_event R md5Hex uid .EXPERIMENT_ASSIGNMENT (c.2.1 + d.1) d.2
        [("experiment_id", PropValue.str e.experiment_id), ("variant", PropValue.str v)] with hae
      have h1 : (1 : ℤ) ≤ (d.1 : ℤ) := by exact_mod_cast (hd ▸ Hlo 1 10 c.2.2)
      have haet : ae.1.timestamp = c.2.1 + (d.1 : ℤ) := by rw [hae]; rfl
      obtain ⟨hr1, hr2⟩ := journeyRest_chunk R Hlo md5Hex cfg uid (some v) (c.2.1 + d.1) ae.2
      simp only [Option.some.injEq, Prod.mk.injEq] at h
      have hevs : evs = p.1 ++ c.1 ++
          (ae.1 :: (journeyRest R md5Hex cfg uid (some v) (c.2.1 + d.1) ae.2).1) := by
        rw [← h.1]
      subst hevs
      refine (List.pairwise_append).2 ⟨(List.pairwise_append).2 ⟨hp2, hc2, ?_⟩, ?_, ?_⟩
      · intro x hx y hy
        have hxb := (hp3 x hx).2
        have hyb := (hc3 y hy).1
        omega
      · refine List.pairwise_cons.2 ⟨?_, hr1⟩
        intro y hy
        have := hr2 y hy
        omega
      · intro x hx y hy
        have hxlt : x.timestamp < c.2.1 := by
          rcases List.mem_append.1 hx with hx | hx
          · have hxb := (hp3 x hx).2
            omega
          · exact (hc3 x hx).2
        rcases List.mem_cons.1 hy with rfl | hy
        · omega
        · have := hr2 y hy
          omega

lemma eq_some_getD {α : Type} (o : Option α) (d : α) (h : o.isSome = true) :
    o = some (o.getD d) := by
  cases o with
  | none => simp at h
  | some a => rfl

theorem c10_witness :
    cfgTiny.min_page_views ≤ cfgTiny.max_page_views ∧
    cfgTiny.min_clicks ≤ cfgTiny.max_clicks ∧
    simulate_user_journey unitRng constMd5 "u" 0 cfgTiny () none =
      some ((simulate_user_journey unitRng constMd5 "u" 0 cfgTiny () none).getD ([], ())) ∧
    ((simulate_user_journey unitRng constMd5 "u" 0 cfgTiny () none).getD ([], ())).1.Pairwise
      (fun a b => a.timestamp < b.timestamp) :=
  ⟨by decide, by decide,
   eq_some_getD _ _ (by with_unfolding_all decide),
   c10_journey_strictly_increasing unitRng constMd5 cfgTiny "u" 0 () none
     ((simulate_user_journey unitRng constMd5 "u" 0 cfgTiny () none).getD ([], ())).1
     ((simulate_user_journey unitRng constMd5 "u" 0 cfgTiny () none).getD ([], ())).2
     (fun lo _ _ => Nat.le_refl lo) (by decide) (by decide)
     (eq_some_getD (simulate_user_journey unitRng constMd5 "u" 0 cfgTiny () none)
       ([], ()) (by with_unfolding_all decide))⟩

/-- Claim C6: the event sequence returned by generate_events is sorted by
timestamp in non-decreasing order. -/
theorem c6_sorted_by_timestamp {σ : Type} (R : Rng σ) (md5Hex : List Nat → String)
    (cfg : SimulationConfig) (experiment : Option Experiment) (now : Int)
    (evs : List Event) (h : generate_events R md5Hex cfg experiment now = some evs) :
    evs.Pairwise (fun a b => a.timestamp ≤ b.timestamp) := by
  unfold generate_events at h
  dsimp only at h
  cases hu : usersLoop R md5Hex cfg experiment (now - 86400 - cfg.days * 86400)
      cfg.num_users 0 (R.init cfg.seed) with
  | none => rw [hu] at h; exact absurd h (by simp)
  | some p =>
    rw [hu] at h
    simp only [Option.some.injEq] at h
    subst h
    exact List.sorted_insertionSort tsLE p.1






theorem c6_witness :
    generate_events unitRng constMd5 cfgTiny none 0 =
      some ((generate_events unitRng constMd5 cfgTiny none 0).getD []) ∧
    ((generate_events unitRng constMd5 cfgTiny none 0).getD []).Pairwise
      (fun a b => a.timestamp ≤ b.timestamp) :=
  ⟨eq_some_getD _ _ (by with_unfolding_all decide),
   c6_sorted_by_timestamp unitRng constMd5 cfgTiny none 0 _
     (eq_some_getD _ _ (by with_unfolding_all decide))⟩

lemma journey_none_eq {σ : Type} (R : Rng σ) (md5Hex : List Nat → String)
    (cfg : SimulationConfig) (uid : String) (start : Int) (s : σ) :
    ∃ p, simulate_user_journey R md5Hex uid start cfg s none = some p ∧
      ∀ e ∈ p.1, isAssign e = false := by
  unfold simulate_user_journey
  dsimp only
  refine ⟨_, rfl, ?_⟩
  intro e he
  rcases List.mem_append.1 he with he | he
  · rcases List.mem_append.1 he with he | he
    · have := (pagesLoop_types R md5Hex cfg uid _ _ _ e he).1
      simp [isAssign, this]
    · have := (clicksLoop_types R md5Hex cfg uid _ _ _ e he).1
      simp [isAssign, this]
  · have := (journeyRest_types R md5Hex cfg uid none _ _ e he).1
    simp [isAssign, this]

lemma usersLoop_none {σ : Type} (R : Rng σ) (md5Hex : List Nat → String)
    (cfg : SimulationConfig) (start : Int) : ∀ (n i : Nat) (s : σ),
    ∃ p, usersLoop R md5Hex cfg none start n i s = some p ∧
      ∀ e ∈ p.1, isAssign e = false
  | 0, i, s => ⟨([], s), rfl, by simp⟩
  | n + 1, i, s => by
    obtain ⟨p, hp, hp2⟩ := journey_none_eq R md5Hex cfg (userId i) start s
    obtain ⟨q, hq, hq2⟩ := usersLoop_none R md5Hex cfg start n (i + 1) p.2
    refine ⟨(p.1 ++ q.1, q.2), ?_, ?_⟩
    · simp only [usersLoop, hp, hq]
    · intro e he
      rcases List.mem_append.1 he with he | he
      · exact hp2 e he
      · exact hq2 e he

/-- Claim C7: with no experiment supplied, generate_events succeeds and
its output contains zero EXPERIMENT_ASSIGNMENT events. -/
theorem c7_no_experiment_zero_assignments {σ : Type} (R : Rng σ)
    (md5Hex : List Nat → String) (cfg : SimulationConfig) (now : Int) :
    ∃ evs, generate_events R md5Hex cfg none now = some evs ∧
      evs.filter isAssign = [] := by
  obtain ⟨p, hp, hall⟩ := usersLoop_none R md5Hex cfg
    (now - 86400 - cfg.days * 86400) cfg.num_users 0 (R.init cfg.seed)
  unfold generate_events
  dsimp only
  rw [hp]
  refine ⟨_, rfl, ?_⟩
  rw [List.filter_eq_nil_iff]
  intro e he
  have := hall e ((List.perm_insertionSort tsLE p.1).subset he)
  simp [this]


lemma pagesLoop_shift {σ : Type} (R : Rng σ) (md5Hex : List Nat → String)
    (cfg : SimulationConfig) (uid : String) (d : Int) : ∀ (n : Nat) (t : Int) (s : σ),
    pagesLoop R md5Hex cfg uid n (t + d) s =
      ((pagesLoop R md5Hex cfg uid n t s).1.map (shiftEvent d),
       (pagesLoop R md5Hex cfg uid n t s).2.1 + d,
       (pagesLoop R md5Hex cfg uid n t s).2.2)
  | 0, t, s => by simp [pagesLoop]
  | n + 1, t, s => by
    have ih := pagesLoop_shift R md5Hex cfg uid d n
      (t + ((R.randint 5 120 (R.randbytes 16 (R.choice cfg.pages s).2).2).1 : ℤ))
      (R.randint 5 120 (R.randbytes 16 (R.choice cfg.pages s).2).2).2
    simp only [pagesLoop, make_event, shiftEvent, List.map_cons]
    rw [add_right_comm t d _, ih]

lemma clicksLoop_shift {σ : Type} (R : Rng σ) (md5Hex : List Nat → String)
    (cfg : SimulationConfig) (uid : String) (d : Int) : ∀ (n : Nat) (t : Int) (s : σ),
    clicksLoop R md5Hex cfg uid n (t + d) s =
      ((clicksLoop R md5Hex cfg uid n t s).1.map (shiftEvent d),
       (clicksLoop R md5Hex cfg uid n t s).2.1 + d,
       (clicksLoop R md5Hex cfg uid n t s).2.2)
  | 0, t, s => by simp [clicksLoop]
  | n + 1, t, s => by
    have ih := clicksLoop_shift R md5Hex cfg uid d n
      (t + ((R.randint 2 30 (R.randbytes 16 (R.choice cfg.click_targets s).2).2).1 : ℤ))
      (R.randint 2 30 (R.randbytes 16 (R.choice cfg.click_targets s).2).2).2
    simp only [clicksLoop, make_event, shiftEvent, List.map_cons]
    rw [add_right_comm t d _, ih]

lemma dashLoop_shift {σ : Type} (R : Rng σ) (md5Hex : List Nat → String)
    (uid : String) (d : Int) : ∀ (n : Nat) (t : Int) (s : σ),
    dashLoop R md5Hex uid n (t + d) s =
      ((dashLoop R md5Hex uid n t s).1.map (shiftEvent d),
       (dashLoop R md5Hex uid n t s).2.1 + d,
       (dashLoop R md5Hex uid n t s).2.2)
  | 0, t, s => by simp [dashLoop]
  | n + 1, t, s => by
    have ih := dashLoop_shift R md5Hex uid d n
      (t + ((R.randint 10 180 (R.randbytes 16 s).2).1 : ℤ))
      (R.randint 10 180 (R.randbytes 16 s).2).2
    simp only [dashLoop, make_event, shiftEvent, List.map_cons]
    rw [add_right_comm t d _, ih]

lemma journeyRest_shift {σ : Type} (R : Rng σ) (md5Hex : List Nat → String)
    (cfg : SimulationConfig) (uid : String) (v : Option String) (d : Int)
    (t : Int) (s : σ) :
    journeyRest R md5Hex cfg uid v (t + d) s =
      ((journeyRest R md5Hex cfg uid v t s).1.map (shiftEvent d),
       (journeyRest R md5Hex cfg uid v t s).2) := by
  unfold journeyRest
  simp only [make_event]
  rw [add_right_comm t d _]
  rw [add_right_comm (t + _) d _]
  rw [dashLoop_shift R md5Hex uid d]
  split_ifs
  · rfl
  · simp only [shiftEvent, List.map_cons, List.map_nil]
  · simp only [shiftEvent, List.map_cons]
  · simp only [shiftEvent, List.map_cons, List.map_append, List.map_nil]
    rw [add_right_comm _ d _]

lemma journey_shift {σ : Type} (R : Rng σ) (md5Hex : List Nat → String)
    (uid : String) (cfg : SimulationConfig) (d start : Int) (s : σ)
    (experiment : Option Experiment) :
    simulate_user_journey R md5Hex uid (start + d) cfg s experiment =
      (simulate_user_journey R md5Hex uid start cfg s experiment).map
        (fun p => (p.1.map (shiftEvent d), p.2)) := by
  unfold simulate_user_journey
  dsimp only
  rw [add_right_comm start d _]
  rw [pagesLoop_shift R md5Hex cfg uid d]
  rw [clicksLoop_shift R md5Hex cfg uid d]
  cases experiment with
  | none =>
    dsimp only
    rw [journeyRest_shift R md5Hex cfg uid none d]
    simp [List.map_append]
  | some e =>
    dsimp only
    cases assign_variant e uid with
    | none => rfl
    | some v =>
      dsimp only
      rw [add_right_comm _ d _]
      rw [journeyRest_shift R md5Hex cfg uid (some v) d]
      simp [make_event, shiftEvent, List.map_append]

lemma usersLoop_shift {σ : Type} (R : Rng σ) (md5Hex : List Nat → String)
    (cfg : SimulationConfig) (experiment : Option Experiment) (d start : Int) :
    ∀ (n i : Nat) (s : σ),
    usersLoop R md5Hex cfg experiment (start + d) n i s =
      (usersLoop R md5Hex cfg experiment start n i s).map
        (fun p => (p.1.map (shiftEvent d), p.2))
  | 0, i, s => rfl
  | n + 1, i, s => by
    simp only [usersLoop]
    rw [journey_shift R md5Hex (userId i) cfg d start s experiment]
    cases simulate_user_journey R md5Hex (userId i) start cfg s experiment with
    | none => rfl
    | some p =>
      dsimp only [Option.map_some']
      rw [usersLoop_shift R md5Hex cfg experiment d start n (i + 1) p.2]
      cases usersLoop R md5Hex cfg experiment start n (i + 1) p.2 with
      | none => rfl
      | some q => simp

lemma tsLE_shift {d : Int} {a b : Event} : tsLE (shiftEvent d a) (shiftEvent d b) ↔ tsLE a b := by
  simp only [tsLE, shiftEvent]
  omega

lemma orderedInsert_shift (d : Int) (e : Event) : ∀ l : List Event,
    List.orderedInsert tsLE (shiftEvent d e) (l.map (shiftEvent d)) =
      (List.orderedInsert tsLE e l).map (shiftEvent d)
  | [] => rfl
  | b :: l => by
    simp only [List.map_cons, List.orderedInsert]
    by_cases h : tsLE e b
    · rw [if_pos h, if_pos (tsLE_shift.2 h)]
      simp
    · rw [if_neg h, if_neg (fun hc => h (tsLE_shift.1 hc))]
      rw [List.map_cons, orderedInsert_shift d e l]

lemma insertionSort_shift (d : Int) : ∀ l : List Event,
    List.insertionSort tsLE (l.map (shiftEvent d)) =
      (List.insertionSort tsLE l).map (shiftEvent d)
  | [] => rfl
  | a :: l => by
    simp only [List.map_cons, List.insertionSort]
    rw [insertionSort_shift d l, orderedInsert_shift d a]

/-- Amended claim C3: for fixed (config, experiment, seed), two
invocations of generate_events agree in length, order, event ids, event
types, user ids and properties; every timestamp shifts by exactly the
difference of the two invocation clock instants (so two invocations at
the same instant produce identical sequences, timestamps included). -/
theorem c3_corrected_shift {σ : Type} (R : Rng σ) (md5Hex : List Nat → String)
    (cfg : SimulationConfig) (experiment : Option Experiment) (now1 now2 : Int) :
    generate_events R md5Hex cfg experiment now2 =
      (generate_events R md5Hex cfg experiment now1).map
        (List.map (shiftEvent (now2 - now1))) := by
  have key : ∀ (now d : Int), generate_events R md5Hex cfg experiment (now + d) =
      (generate_events R md5Hex cfg experiment now).map (List.map (shiftEvent d)) := by
    intro now d
    unfold generate_events
    dsimp only
    have hst : now + d - 86400 - (cfg.days : ℤ) * 86400 =
        now - 86400 - (cfg.days : ℤ) * 86400 + d := by omega
    rw [hst, usersLoop_shift R md5Hex cfg experiment d]
    cases usersLoop R md5Hex cfg experiment (now - 86400 - cfg.days * 86400)
        cfg.num_users 0 (R.init cfg.seed) with
    | none => rfl
    | some p =>
      dsimp only [Option.map_some']
      rw [insertionSort_shift d p.1]
  have h2 : now1 + (now2 - now1) = now2 := by omega
  conv_lhs => rw [← h2]
  exact key now1 (now2 - now1)

/-- Counterexample to claim C3 as stated: the same (config, experiment,
seed) run at two different wall-clock instants (the datetime.now readings
differ by one day) yields different event sequences — the timestamps
derive from the clock reading, not only from the seed. -/
theorem c3_counterexample :
    generate_events unitRng constMd5 cfgTiny none 86400 ≠
      generate_events unitRng constMd5 cfgTiny none 0 := by
  intro h
  have h2 := congrArg
    (fun o => ((o.getD []).headD ⟨"", "", .SIGNUP, 0, []⟩).timestamp) h
  have h3 : (((generate_events unitRng constMd5 cfgTiny none 86400).getD []).headD
        ⟨"", "", .SIGNUP, 0, []⟩).timestamp ≠
      (((generate_events unitRng constMd5 cfgTiny none 0).getD []).headD
        ⟨"", "", .SIGNUP, 0, []⟩).timestamp := by
    with_unfolding_all decide
  exact h3 h2

lemma ofDigitsLE_decDigitsAux : ∀ (fuel n : Nat), n ≤ fuel →
    ofDigitsLE (decDigitsAux fuel n) = n
  | 0, n, h => by
    have : n = 0 := by omega
    subst this
    rfl
  | fuel + 1, 0, _ => rfl
  | fuel + 1, n + 1, h => by
    have hdiv : (n + 1) / 10 ≤ fuel := by
      have := Nat.div_lt_self (Nat.succ_pos n) (by norm_num : 1 < 10)
      omega
    simp only [decDigitsAux, ofDigitsLE]
    rw [ofDigitsLE_decDigitsAux fuel ((n + 1) / 10) hdiv]
    omega

lemma decDigitsAux_lt : ∀ (fuel n : Nat), ∀ x ∈ decDigitsAux fuel n, x < 10
  | 0, n => by simp [decDigitsAux]
  | fuel + 1, 0 => by simp [decDigitsAux]
  | fuel + 1, n + 1 => by
    intro x hx
    simp only [decDigitsAux, List.mem_cons] at hx
    rcases hx with rfl | hx
    · exact Nat.mod_lt _ (by norm_num)
    · exact decDigitsAux_lt fuel _ x hx

lemma charVal_digitChar : ∀ d : Nat, d < 10 → charVal (digitChar d) = d := by
  intro d hd
  interval_cases d <;> decide

lemma ofDigitsLE_replicate_zero : ∀ k : Nat, ofDigitsLE (List.replicate k 0) = 0
  | 0 => rfl
  | k + 1 => by simp [List.replicate, ofDigitsLE, ofDigitsLE_replicate_zero k]

lemma ofDigitsLE_append_zeros : ∀ (l : List Nat) (k : Nat),
    ofDigitsLE (l ++ List.replicate k 0) = ofDigitsLE l
  | [], k => by simp [ofDigitsLE_replicate_zero k, ofDigitsLE]
  | a :: l, k => by simp [ofDigitsLE, ofDigitsLE_append_zeros l k]

lemma parsePad_pad5 (i : Nat) : parsePad (pad5 i) = i := by
  unfold parsePad pad5
  rw [List.reverse_append, List.reverse_replicate, List.map_append, List.map_replicate]
  rw [show charVal '0' = 0 from rfl]
  rw [ofDigitsLE_append_zeros]
  by_cases h0 : i = 0
  · subst h0
    rfl
  · unfold decimalChars
    rw [if_neg h0, List.reverse_reverse, List.map_map]
    have hmap : (decDigitsAux i i).map (charVal ∘ digitChar) = decDigitsAux i i := by
      have : ∀ l : List Nat, (∀ x ∈ l, x < 10) → l.map (charVal ∘ digitChar) = l := by
        intro l hl
        induction l with
        | nil => rfl
        | cons a l ih =>
          simp only [List.map_cons, Function.comp_apply,
            charVal_digitChar a (hl a (List.mem_cons_self a l))]
          rw [ih (fun x hx => hl x (List.mem_cons_of_mem a hx))]
      exact this _ (decDigitsAux_lt i i)
    rw [hmap]
    exact ofDigitsLE_decDigitsAux i i le_rfl

lemma userId_inj {i j : Nat} (h : userId i = userId j) : i = j := by
  have hd := congrArg String.data h
  simp only [userId, String.data_append] at hd
  have hp : pad5 i = pad5 j := List.append_cancel_left hd
  have hparse := congrArg parsePad hp
  rwa [parsePad_pad5, parsePad_pad5] at hparse

lemma assign_variant_total (e : Experiment) (uid : String) (hne : e.variants ≠ []) :
    ∃ v, assign_variant e uid = some v ∧ v ∈ e.variants.map Variant.name := by
  unfold assign_variant
  cases hw : assignWalk (bucket e.experiment_id uid) 0 e.variants with
  | some n => exact ⟨n, rfl, assignWalk_mem _ _ _ _ hw⟩
  | none =>
    refine ⟨(e.variants.getLast hne).name, ?_, ?_⟩
    · rw [List.getLast?_eq_getLast_of_ne_nil hne]
      rfl
    · exact List.mem_map_of_mem Variant.name (e.variants.getLast_mem hne)

lemma journey_some_filter {σ : Type} (R : Rng σ) (md5Hex : List Nat → String)
    (cfg : SimulationConfig) (uid : String) (start : Int) (s : σ)
    (e : Experiment) (hne : e.variants ≠ []) :
    ∃ p v ev, simulate_user_journey R md5Hex uid start cfg s (some e) = some p ∧
      v ∈ e.variants.map Variant.name ∧
      p.1.filter isAssign = [ev] ∧
      ev.user_id = uid ∧ ev.event_type = EventType.EXPERIMENT_ASSIGNMENT ∧
      ev.properties =
        [("experiment_id", PropValue.str e.experiment_id), ("variant", PropValue.str v)] := by
  obtain ⟨v, hv, hvm⟩ := assign_variant_total e uid hne
  cases hj : simulate_user_journey R md5Hex uid start cfg s (some e) with
  | none =>
    exfalso
    unfold simulate_user_journey at hj
    dsimp only at hj
    rw [hv] at hj
    simp at hj
  | some p =>
    unfold simulate_user_journey at hj
    dsimp only at hj
    rw [hv] at hj
    dsimp only at hj
    set a := R.randint 0 (cfg.days * 86400) s with ha
    set np := R.randint cfg.min_page_views cfg.max_page_views a.2 with hnp
    set p1 := pagesLoop R md5Hex cfg uid np.1 (start + a.1) np.2 with hp1
    set nc := R.randint cfg.min_clicks cfg.max_clicks p1.2.2 with hnc
    set c := clicksLoop R md5Hex cfg uid nc.1 p1.2.1 nc.2 with hc
    set d := R.randint 1 10 c.2.2 with hd
    set ae := make_event R md5Hex uid .EXPERIMENT_ASSIGNMENT (c.2.1 + d.1) d.2
      [("experiment_id", PropValue.str e.experiment_id), ("variant", PropValue.str v)] with hae
    simp only [Option.some.injEq] at hj
    have h1 : p1.1.filter isAssign = [] := by
      rw [List.filter_eq_nil_iff]
      intro x hx
      rw [hp1] at hx
      have := (pagesLoop_types R md5Hex cfg uid _ _ _ x hx).1
      simp [isAssign, this]
    have h2 : c.1.filter isAssign = [] := by
      rw [List.filter_eq_nil_iff]
      intro x hx
      rw [hc] at hx
      have := (clicksLoop_types R md5Hex cfg uid _ _ _ x hx).1
      simp [isAssign, this]
    have h3 : (journeyRest R md5Hex cfg uid (some v) (c.2.1 + d.1) ae.2).1.filter isAssign = [] := by
      rw [List.filter_eq_nil_iff]
      intro x hx
      have := (journeyRest_types R md5Hex cfg uid (some v) _ _ x hx).1
      simp [isAssign, this]
    have hpos : isAssign ae.1 = true := by
      rw [hae]
      rfl
    refine ⟨p, v, ae.1, rfl, hvm, ?_, by rw [hae]; rfl, by rw [hae]; rfl, by rw [hae]; rfl⟩
    rw [← hj]
    dsimp only
    rw [List.filter_append, List.filter_append, h1, h2,
      List.filter_cons_of_pos hpos, h3]
    simp

lemma usersLoop_assign_filter {σ : Type} (R : Rng σ) (md5Hex : List Nat → String)
    (cfg : SimulationConfig) (e : Experiment) (hne : e.variants ≠ [])
    (start : Int) : ∀ (n i : Nat) (s : σ),
    ∃ p, usersLoop R md5Hex cfg (some e) start n i s = some p ∧
      (p.1.filter isAssign).map Event.user_id =
        (List.range n).map (fun k => userId (i + k)) ∧
      ∀ ev ∈ p.1.filter isAssign,
        ev.event_type = EventType.EXPERIMENT_ASSIGNMENT ∧
        ev.properties.lookup "experiment_id" = some (PropValue.str e.experiment_id) ∧
        ∃ w, ev.properties.lookup "variant" = some (PropValue.str w) ∧
          w ∈ e.variants.map Variant.name
  | 0, i, s => ⟨([], s), rfl, by simp, by simp⟩
  | n + 1, i, s => by
    obtain ⟨p, v, ev, hj, hvm, hfil, hu, hty, hprops⟩ :=
      journey_some_filter R md5Hex cfg (userId i) start s e hne
    obtain ⟨q, hq, hqmap, hqall⟩ :=
      usersLoop_assign_filter R md5Hex cfg e hne start n (i + 1) p.2
    refine ⟨(p.1 ++ q.1, q.2), ?_, ?_, ?_⟩
    · simp only [usersLoop, hj, hq]
    · dsimp only
      rw [List.filter_append, List.map_append, hfil, hqmap]
      rw [List.range_succ_eq_map]
      simp only [List.map_cons, List.map_nil, List.singleton_append,
        List.map_map, List.cons.injEq]
      refine ⟨by simp [hu], ?_⟩
      apply List.map_congr_left
      intro k hk
      simp only [Function.comp_apply]
      congr 1
      omega
    · intro x hx
      dsimp only at hx
      rw [List.filter_append] at hx
      rcases List.mem_append.1 hx with hx | hx
      · rw [hfil] at hx
        rcases List.mem_singleton.1 hx with rfl
        refine ⟨hty, ?_, v, ?_, hvm⟩
        · rw [hprops]
          simp [List.lookup]
        · rw [hprops]
          simp [List.lookup]
      · exact hqall x hx

lemma generate_events_eq {σ : Type} (R : Rng σ) (md5Hex : List Nat → String)
    (cfg : SimulationConfig) (experiment : Option Experiment) (now : Int)
    (p : List Event × σ)
    (h : usersLoop R md5Hex cfg experiment (now - 86400 - cfg.days * 86400)
      cfg.num_users 0 (R.init cfg.seed) = some p) :
    generate_events R md5Hex cfg experiment now = some (List.insertionSort tsLE p.1) := by
  unfold generate_events
  dsimp only
  rw [h]

/-- Claim C5: with SimulationConfig(num_users 500, days 7, seed 42) and
the default pricing experiment, generate_events succeeds and emits
exactly 500 EXPERIMENT_ASSIGNMENT events, one per distinct user id
(exactly the ids user_00000 .. user_00499), each carrying a variant that
is control or treatment and experiment_id exp_pricing_page_v1. -/
theorem c5_concrete_scenario {σ : Type} (R : Rng σ) (md5Hex : List Nat → String)
    (now : Int) :
    ∃ evs, generate_events R md5Hex cfg500 (some PRICING_PAGE_EXPERIMENT) now = some evs ∧
      (evs.filter isAssign).length = 500 ∧
      ((evs.filter isAssign).map Event.user_id).Perm ((List.range 500).map userId) ∧
      ((evs.filter isAssign).map Event.user_id).Nodup ∧
      ∀ ev ∈ evs.filter isAssign,
        ev.properties.lookup "experiment_id" = some (PropValue.str "exp_pricing_page_v1") ∧
        (ev.properties.lookup "variant" = some (PropValue.str "control") ∨
         ev.properties.lookup "variant" = some (PropValue.str "treatment")) := by
  have hne : PRICING_PAGE_EXPERIMENT.variants ≠ [] := by
    simp [PRICING_PAGE_EXPERIMENT]
  obtain ⟨p, hp, hmap, hall⟩ := usersLoop_assign_filter R md5Hex cfg500
    PRICING_PAGE_EXPERIMENT hne (now - 86400 - cfg500.days * 86400) cfg500.num_users 0
    (R.init cfg500.seed)
  refine ⟨List.insertionSort tsLE p.1, ?_, ?_, ?_, ?_, ?_⟩
  · exact generate_events_eq R md5Hex cfg500 (some PRICING_PAGE_EXPERIMENT) now p hp
  · have hperm : List.Perm ((List.insertionSort tsLE p.1).filter isAssign)
        (p.1.filter isAssign) :=
      (List.perm_insertionSort tsLE p.1).filter isAssign
    rw [hperm.length_eq]
    have hlen := congrArg List.length hmap
    simp only [List.length_map, List.length_range] at hlen
    exact hlen
  · have hperm : List.Perm ((List.insertionSort tsLE p.1).filter isAssign)
        (p.1.filter isAssign) :=
      (List.perm_insertionSort tsLE p.1).filter isAssign
    refine (hperm.map Event.user_id).trans ?_
    rw [hmap]
    apply List.Perm.of_eq
    apply List.map_congr_left
    intro k _
    simp
  · have hperm : List.Perm ((List.insertionSort tsLE p.1).filter isAssign)
        (p.1.filter isAssign) :=
      (List.perm_insertionSort tsLE p.1).filter isAssign
    have hnr : ((List.range 500).map userId).Nodup :=
      List.Nodup.map (fun a b h => userId_inj h) (List.nodup_range 500)
    have h1 : (p.1.filter isAssign).map Event.user_id = (List.range 500).map userId := by
      rw [hmap]
      apply List.map_congr_left
      intro k _
      simp
    rw [(hperm.map Event.user_id).nodup_iff, h1]
    exact hnr
  · intro ev hev
    have hperm : List.Perm ((List.insertionSort tsLE p.1).filter isAssign)
        (p.1.filter isAssign) :=
      (List.perm_insertionSort tsLE p.1).filter isAssign
    obtain ⟨_, hexp, w, hvar, hwm⟩ := hall ev (hperm.subset hev)
    refine ⟨hexp, ?_⟩
    have hw : w ∈ ["control", "treatment"] := by
      simpa [PRICING_PAGE_EXPERIMENT] using hwm
    rcases List.mem_cons.1 hw with rfl | hw2
    · exact Or.inl hvar
    · rcases List.mem_singleton.1 hw2 with rfl
      exact Or.inr hvar

end StartupAB
